import Mathlib

/-!
Shallow embedding of the library-circulation program (biblioteca.py):
books, patrons, loans, late fines, and the in-memory catalog with
case-insensitive substring search.  Python object aliasing (a loan holds
references to the patron object and the book object stored in the
library's lists) is modelled by storing the list index of the referenced
record inside the loan; mutation through the alias becomes an in-place
list update at that index.  Timestamps are integers counting seconds;
the Python `timedelta.days` field is floor division by 86400.
-/

namespace Biblio

/-- One book record: identity, bibliographic data, availability flag
(`Libro.__init__`). -/
structure Libro where
  id_libro : Int
  titulo : String
  autor : String
  disponible : Bool
deriving DecidableEq

/-- `Libro(id, titulo, autor)` with the default `disponible=True`. -/
def mkLibro (i : Int) (t a : String) : Libro :=
  { id_libro := i, titulo := t, autor := a, disponible := true }

/-- One patron record: identity, name, accumulated fine balance
(`Usuario.__init__` always starts `multas` at 0). -/
structure Usuario where
  id_usuario : Int
  nombre : String
  multas : Int
deriving DecidableEq

/-- `Usuario(id, nombre)`: the constructor forces `multas = 0`. -/
def mkUsuario (i : Int) (n : String) : Usuario :=
  { id_usuario := i, nombre := n, multas := 0 }

/-- One loan record (`Prestamo.__init__`).  `usuarioIdx` and `libroIdx`
are the positions, in the library's patron list and the catalog's book
list, of the objects the Python loan references. -/
structure Prestamo where
  usuarioIdx : Nat
  libroIdx : Nat
  fecha_prestamo : Int
  devuelto : Bool
  fecha_devolucion : Option Int
deriving DecidableEq

/-- Default used for out-of-range list reads; marked returned so that a
read past the end of the loan list never looks like an active loan. -/
def prestamoDefault : Prestamo :=
  { usuarioIdx := 0, libroIdx := 0, fecha_prestamo := 0,
    devuelto := true, fecha_devolucion := none }

def libroDefault : Libro :=
  { id_libro := 0, titulo := "", autor := "", disponible := false }

def usuarioDefault : Usuario := { id_usuario := 0, nombre := "", multas := 0 }

/-- `Prestamo.DIAS_MAXIMO`. -/
def DIAS_MAXIMO : Int := 7

/-- `Prestamo.MULTA_POR_DIA`. -/
def MULTA_POR_DIA : Int := 500

/-- `(d2 - d1).days` for two timestamps in seconds: Python's
`timedelta.days` floors toward negative infinity. -/
def diffDays (d1 d2 : Int) : Int := Int.fdiv (d2 - d1) 86400

/-- The `dias_prestados` local of `Prestamo.calcular_multa`: days from
the loan date to the return date when returned, else to the current
moment.  (Python would crash on a returned loan whose return date was
never set; we read the option with default 0 there.) -/
def dias_prestados (p : Prestamo) (now : Int) : Int :=
  if p.devuelto = false then diffDays p.fecha_prestamo now
  else diffDays p.fecha_prestamo (p.fecha_devolucion.getD 0)

/-- `Prestamo.calcular_multa`. -/
def calcular_multa (p : Prestamo) (now : Int) : Int :=
  if dias_prestados p now > DIAS_MAXIMO
  then (dias_prestados p now - DIAS_MAXIMO) * MULTA_POR_DIA
  else 0

/-- In-place update of the element at position `i` (Python mutation of a
shared object reached through an alias). -/
def listModify {α : Type} : List α → Nat → (α → α) → List α
  | [], _, _ => []
  | a :: as, 0, f => f a :: as
  | a :: as, n + 1, f => a :: listModify as n f

/-- Index of the first element satisfying `p`
(`next((x for x in l if p x), None)` keeps the first match). -/
def findFirstIdx {α : Type} (p : α → Bool) : List α → Option Nat
  | [] => none
  | a :: as => if p a then some 0 else (findFirstIdx p as).map Nat.succ

/-- Lower-cased character list of a string (`s.lower()`;
ASCII letters, which is all the program's data uses). -/
def lowerStr (s : String) : List Char := s.toList.map Char.toLower

/-- Python's substring test `nd in hay`: some suffix of `hay` starts
with `nd`. -/
def containsSubstr (hay nd : List Char) : Bool :=
  (List.range (hay.length + 1)).any fun i => nd.isPrefixOf (hay.drop i)

/-- The filter predicate of `RepositorioLibrosEnMemoria.buscar_libro`:
`criterio.lower() in l.titulo.lower() or criterio.lower() in l.autor.lower()`. -/
def coincide (criterio : String) (l : Libro) : Bool :=
  containsSubstr (lowerStr l.titulo) (lowerStr criterio) ||
  containsSubstr (lowerStr l.autor) (lowerStr criterio)

/-- Whole library state: the catalog's book list
(`repo_libros.libros`), the registered patrons and the loan list. -/
structure Biblioteca where
  libros : List Libro
  usuarios : List Usuario
  prestamos : List Prestamo
deriving DecidableEq

/-- `Biblioteca(RepositorioLibrosEnMemoria())`: everything empty. -/
def inicial : Biblioteca := { libros := [], usuarios := [], prestamos := [] }

/-- `Biblioteca.registrar_usuario`. -/
def registrar_usuario (b : Biblioteca) (u : Usuario) : Biblioteca :=
  { b with usuarios := b.usuarios ++ [u] }

/-- `Biblioteca.agregar_libro` via `RepositorioLibrosEnMemoria.agregar_libro`. -/
def agregar_libro (b : Biblioteca) (l : Libro) : Biblioteca :=
  { b with libros := b.libros ++ [l] }

/-- `RepositorioLibrosEnMemoria.buscar_libro` (also
`Biblioteca.buscar_libro`, which just delegates). -/
def buscar_libro (b : Biblioteca) (criterio : String) : List Libro :=
  b.libros.filter (coincide criterio)

/-- `Biblioteca.prestar_libro`: look up the patron by id and the first
available book with the given id; on success create the loan, flip the
book's flag and append the loan; otherwise return `none` untouched. -/
def prestar_libro (b : Biblioteca) (id_usuario id_libro now : Int) :
    Option Prestamo × Biblioteca :=
  match findFirstIdx (fun u => u.id_usuario == id_usuario) b.usuarios,
        findFirstIdx (fun l => l.id_libro == id_libro && l.disponible) b.libros with
  | some ui, some li =>
    let prestamo : Prestamo :=
      { usuarioIdx := ui, libroIdx := li, fecha_prestamo := now,
        devuelto := false, fecha_devolucion := none }
    (some prestamo,
      { b with
        libros := listModify b.libros li fun l => { l with disponible := false },
        prestamos := b.prestamos ++ [prestamo] })
  | _, _ => (none, b)

/-- The search predicate of `Biblioteca.devolver_libro`: same patron id,
same book id, not yet returned.  The id of the referenced record is read
through the stored index. -/
def matchesPrestamo (b : Biblioteca) (id_usuario id_libro : Int) (p : Prestamo) : Bool :=
  ((b.usuarios.get? p.usuarioIdx).any fun u => u.id_usuario == id_usuario) &&
  ((b.libros.get? p.libroIdx).any fun l => l.id_libro == id_libro) &&
  !p.devuelto

/-- `Prestamo.devolver` applied to the loan record itself (the book flag
update happens on the catalog list in `devolver_libro`). -/
def cerrar (now : Int) (p : Prestamo) : Prestamo :=
  { p with devuelto := true, fecha_devolucion := some now }

/-- `Biblioteca.devolver_libro`: find the first active loan for the
pair, mark it returned now, free the book, add the fine to the patron's
balance and return the fine; with no match return 0 untouched. -/
def devolver_libro (b : Biblioteca) (id_usuario id_libro now : Int) :
    Int × Biblioteca :=
  match findFirstIdx (matchesPrestamo b id_usuario id_libro) b.prestamos with
  | none => (0, b)
  | some pi =>
    let p := b.prestamos.getD pi prestamoDefault
    let multa := calcular_multa (cerrar now p) now
    (multa,
      { b with
        prestamos := listModify b.prestamos pi (cerrar now),
        libros := listModify b.libros p.libroIdx fun l => { l with disponible := true },
        usuarios := listModify b.usuarios p.usuarioIdx fun u =>
          { u with multas := u.multas + multa } })

/-- One call of the public surface (`search` passes state through
unchanged; `lend` and `return` carry the wall-clock instant of the
call). -/
inductive Op where
  | registrar (id_usuario : Int) (nombre : String)
  | agregar (id_libro : Int) (titulo autor : String)
  | buscar (criterio : String)
  | prestar (id_usuario id_libro now : Int)
  | devolver (id_usuario id_libro now : Int)
deriving DecidableEq

def step (b : Biblioteca) : Op → Biblioteca
  | .registrar i n => registrar_usuario b (mkUsuario i n)
  | .agregar i t a => agregar_libro b (mkLibro i t a)
  | .buscar _ => b
  | .prestar u l now => (prestar_libro b u l now).2
  | .devolver u l now => (devolver_libro b u l now).2

/-- The state after a sequence of operations starting from the empty
library. -/
def run (ops : List Op) : Biblioteca := ops.foldl step inicial

/-- Loan record at position `i` (inactive default past the end). -/
def loanAt (b : Biblioteca) (i : Nat) : Prestamo := b.prestamos.getD i prestamoDefault

/-- Fine balance of the patron stored at position `i` (0 past the end). -/
def multasAt (b : Biblioteca) (i : Nat) : Int :=
  (b.usuarios.getD i usuarioDefault).multas

/-- The fine charged by `devolver_libro` when the matching loan sits at
position `pi`: the loan closed at `now`, evaluated by `calcular_multa`. -/
def multaCobrada (b : Biblioteca) (pi : Nat) (now : Int) : Int :=
  calcular_multa (cerrar now (b.prestamos.getD pi prestamoDefault)) now

/-- The identity-and-bibliographic part of a book record (everything but
the mutable availability flag). -/
def libroKey (l : Libro) : Int × String × String := (l.id_libro, l.titulo, l.autor)

/-- The books inserted into the catalog by a sequence of operations, in
order of insertion. -/
def librosAgregados : List Op → List Libro
  | [] => []
  | Op.agregar i t a :: rest => mkLibro i t a :: librosAgregados rest
  | _ :: rest => librosAgregados rest

/-- Fine formula written from the spec's words: with
`grace_period = 7` and `daily_rate = 500`, the fine is
`(elapsed_days - grace_period) * daily_rate` when
`elapsed_days > grace_period`, else 0. -/
def multaSpecFormula (elapsed_days : Int) : Int :=
  if elapsed_days > 7 then (elapsed_days - 7) * 500 else 0

/-- State invariant maintained by every operation: each loan's stored
indices are in range, the book of every active loan is flagged
unavailable, and no two distinct loan records are simultaneously active
for the same book position. -/
def Inv (b : Biblioteca) : Prop :=
  (∀ i < b.prestamos.length,
      (loanAt b i).usuarioIdx < b.usuarios.length ∧
      (loanAt b i).libroIdx < b.libros.length) ∧
  (∀ i < b.prestamos.length, (loanAt b i).devuelto = false →
      (b.libros.getD (loanAt b i).libroIdx libroDefault).disponible = false) ∧
  (∀ i < b.prestamos.length, ∀ j < b.prestamos.length, i ≠ j →
      (loanAt b i).devuelto = false → (loanAt b j).devuelto = false →
      (loanAt b i).libroIdx ≠ (loanAt b j).libroIdx)

/-- The active (not yet returned) loan records for the book stored at
catalog position `li`. -/
def prestamosActivosDe (b : Biblioteca) (li : Nat) : List Prestamo :=
  b.prestamos.filter fun p => !p.devuelto && p.libroIdx == li

end Biblio

namespace Biblio

/-! ### Helper lemmas: findFirstIdx -/

theorem findFirstIdx_eq_none_iff {α : Type} (p : α → Bool) (l : List α) :
    findFirstIdx p l = none ↔ ∀ a ∈ l, p a = false := by
  induction l with
  | nil => simp [findFirstIdx]
  | cons a as ih =>
    by_cases h : p a = true
    · simp [findFirstIdx, h]
    · simp only [Bool.not_eq_true] at h
      simp [findFirstIdx, h, ih]

theorem findFirstIdx_lt_length {α : Type} {p : α → Bool} {l : List α} {i : Nat}
    (h : findFirstIdx p l = some i) : i < l.length := by
  induction l generalizing i with
  | nil => simp [findFirstIdx] at h
  | cons a as ih =>
    by_cases hp : p a = true
    · simp [findFirstIdx, hp] at h
      subst h
      simp
    · simp only [Bool.not_eq_true] at hp
      simp [findFirstIdx, hp, Option.map_eq_some'] at h
      obtain ⟨j, hj, rfl⟩ := h
      have := ih hj
      simpa [Nat.succ_lt_succ_iff] using this

theorem findFirstIdx_pred {α : Type} {p : α → Bool} {l : List α} {i : Nat} (d : α)
    (h : findFirstIdx p l = some i) : p (l.getD i d) = true := by
  induction l generalizing i with
  | nil => simp [findFirstIdx] at h
  | cons a as ih =>
    by_cases hp : p a = true
    · simp [findFirstIdx, hp] at h
      subst h
      simpa using hp
    · simp only [Bool.not_eq_true] at hp
      simp [findFirstIdx, hp, Option.map_eq_some'] at h
      obtain ⟨j, hj, rfl⟩ := h
      simpa [List.getD] using ih hj

theorem findFirstIdx_isSome_of_mem {α : Type} {p : α → Bool} {l : List α} {a : α}
    (ha : a ∈ l) (hp : p a = true) : ∃ i, findFirstIdx p l = some i := by
  cases h : findFirstIdx p l with
  | some i => exact ⟨i, rfl⟩
  | none =>
    have := (findFirstIdx_eq_none_iff p l).mp h a ha
    rw [hp] at this
    cases this

/-! ### Helper lemmas: listModify -/

theorem length_listModify {α : Type} (l : List α) (i : Nat) (f : α → α) :
    (listModify l i f).length = l.length := by
  induction l generalizing i with
  | nil => rfl
  | cons a as ih =>
    cases i with
    | zero => rfl
    | succ n => simp [listModify, ih]

theorem getD_listModify_self {α : Type} {l : List α} {i : Nat} (f : α → α) (d : α)
    (h : i < l.length) : (listModify l i f).getD i d = f (l.getD i d) := by
  induction l generalizing i with
  | nil => simp at h
  | cons a as ih =>
    cases i with
    | zero => rfl
    | succ n =>
      simp only [List.length_cons, Nat.succ_lt_succ_iff] at h
      simpa [listModify, List.getD] using ih h

theorem getD_listModify_ne {α : Type} {i j : Nat} (l : List α) (f : α → α) (d : α)
    (h : i ≠ j) : (listModify l i f).getD j d = l.getD j d := by
  induction l generalizing i j with
  | nil => rfl
  | cons a as ih =>
    cases i with
    | zero =>
      cases j with
      | zero => exact absurd rfl h
      | succ m => rfl
    | succ n =>
      cases j with
      | zero => rfl
      | succ m =>
        have : n ≠ m := fun hh => h (by omega)
        simpa [listModify, List.getD] using ih this

theorem map_listModify {α β : Type} (k : α → β) (l : List α) (i : Nat) (f : α → α)
    (hf : ∀ a, k (f a) = k a) : (listModify l i f).map k = l.map k := by
  induction l generalizing i with
  | nil => rfl
  | cons a as ih =>
    cases i with
    | zero => simp [listModify, hf]
    | succ n => simp [listModify, ih]

end Biblio

namespace Biblio

/-! ### Helper lemmas: out-of-range modify, fine arithmetic, substrings -/

theorem listModify_of_ge {α : Type} {l : List α} {i : Nat} (f : α → α)
    (h : l.length ≤ i) : listModify l i f = l := by
  induction l generalizing i with
  | nil => rfl
  | cons a as ih =>
    cases i with
    | zero => simp at h
    | succ n =>
      simp only [List.length_cons, Nat.succ_le_succ_iff] at h
      simp [listModify, ih h]

theorem diffDays_eq_ediv (d1 d2 : Int) : diffDays d1 d2 = (d2 - d1) / 86400 :=
  Int.fdiv_eq_ediv _ (by norm_num)

theorem multa_nonneg (p : Prestamo) (now : Int) : 0 ≤ calcular_multa p now := by
  unfold calcular_multa DIAS_MAXIMO MULTA_POR_DIA
  split
  · rename_i hgt
    omega
  · exact le_refl 0

theorem containsSubstr_iff_infix (hay nd : List Char) :
    containsSubstr hay nd = true ↔ nd <:+: hay := by
  unfold containsSubstr
  rw [List.any_eq_true]
  constructor
  · rintro ⟨i, hi, hpre⟩
    rw [List.isPrefixOf_iff_prefix] at hpre
    exact List.infix_iff_prefix_suffix.mpr ⟨hay.drop i, hpre, List.drop_suffix i hay⟩
  · intro hinf
    obtain ⟨t, hpre, hsuf⟩ := List.infix_iff_prefix_suffix.mp hinf
    obtain ⟨s, hs⟩ := hsuf
    refine ⟨s.length, ?_, ?_⟩
    · rw [List.mem_range]
      have : hay.length = s.length + t.length := by
        rw [← hs, List.length_append]
      omega
    · rw [List.isPrefixOf_iff_prefix]
      have hdrop : hay.drop s.length = t := by
        rw [← hs, List.drop_left]
      rw [hdrop]
      exact hpre

/-- C2: the computed fine agrees with the spec's formula over the floor
of elapsed whole days — measured to the current moment for an active
loan and to the return date for a closed one — and the spec's worked
examples hold: returned at day 10 the fine is 1500, at day 7 or earlier
0, at day 8 exactly 500. -/
theorem calcular_multa_formula :
    (∀ (p : Prestamo) (now : Int), p.devuelto = false →
        calcular_multa p now = multaSpecFormula (diffDays p.fecha_prestamo now)) ∧
    (∀ (p : Prestamo) (now t : Int), p.devuelto = true → p.fecha_devolucion = some t →
        calcular_multa p now = multaSpecFormula (diffDays p.fecha_prestamo t)) ∧
    calcular_multa ⟨0, 0, 0, true, some (10 * 86400)⟩ 0 = 1500 ∧
    (∀ t : Int, t ≤ 7 * 86400 → calcular_multa ⟨0, 0, 0, true, some t⟩ 0 = 0) ∧
    calcular_multa ⟨0, 0, 0, true, some (8 * 86400)⟩ 0 = 500 := by
  refine ⟨?_, ?_, by decide, ?_, by decide⟩
  · intro p now h
    simp [calcular_multa, dias_prestados, h, multaSpecFormula, DIAS_MAXIMO, MULTA_POR_DIA]
  · intro p now t h1 h2
    simp [calcular_multa, dias_prestados, h1, h2, multaSpecFormula, DIAS_MAXIMO, MULTA_POR_DIA]
  · intro t ht
    have hdias : dias_prestados ⟨0, 0, 0, true, some t⟩ 0 ≤ 7 := by
      show diffDays 0 ((some t).getD 0) ≤ 7
      rw [diffDays_eq_ediv]
      simp only [Option.getD_some, sub_zero]
      calc t / 86400 ≤ 7 * 86400 / 86400 := by
            exact Int.ediv_le_ediv (by norm_num) ht
      _ = 7 := by norm_num
    simp only [calcular_multa, DIAS_MAXIMO]
    rw [if_neg (by omega)]

/-- Witness for C2 at a concrete active loan nine days old: the fine
matches the spec formula and equals 1000. -/
theorem calcular_multa_formula_witness :
    calcular_multa ⟨0, 0, 0, false, none⟩ 777600 =
      multaSpecFormula (diffDays 0 777600) ∧
    multaSpecFormula (diffDays 0 777600) = 1000 :=
  ⟨calcular_multa_formula.1 ⟨0, 0, 0, false, none⟩ 777600 rfl, by decide⟩

end Biblio

namespace Biblio

/-! ### Unfolding equations for the two stateful operations -/

theorem prestar_libro_eq_some {b : Biblioteca} {idU idL : Int} {ui li : Nat} (now : Int)
    (h1 : findFirstIdx (fun u => u.id_usuario == idU) b.usuarios = some ui)
    (h2 : findFirstIdx (fun l => l.id_libro == idL && l.disponible) b.libros = some li) :
    prestar_libro b idU idL now =
      (some ⟨ui, li, now, false, none⟩,
        { libros := listModify b.libros li fun l => { l with disponible := false },
          usuarios := b.usuarios,
          prestamos := b.prestamos ++ [⟨ui, li, now, false, none⟩] }) := by
  unfold prestar_libro
  rw [h1, h2]

theorem prestar_libro_eq_none_left {b : Biblioteca} {idU : Int} (idL now : Int)
    (h1 : findFirstIdx (fun u => u.id_usuario == idU) b.usuarios = none) :
    prestar_libro b idU idL now = (none, b) := by
  unfold prestar_libro
  rw [h1]

theorem prestar_libro_eq_none_right {b : Biblioteca} {idL : Int} (idU now : Int)
    (h2 : findFirstIdx (fun l => l.id_libro == idL && l.disponible) b.libros = none) :
    prestar_libro b idU idL now = (none, b) := by
  unfold prestar_libro
  rw [h2]
  cases findFirstIdx (fun u => u.id_usuario == idU) b.usuarios <;> rfl

theorem devolver_libro_eq_none {b : Biblioteca} {idU idL : Int} (now : Int)
    (h : findFirstIdx (matchesPrestamo b idU idL) b.prestamos = none) :
    devolver_libro b idU idL now = (0, b) := by
  unfold devolver_libro
  rw [h]

theorem devolver_libro_eq_some {b : Biblioteca} {idU idL : Int} {pi : Nat} (now : Int)
    (h : findFirstIdx (matchesPrestamo b idU idL) b.prestamos = some pi) :
    devolver_libro b idU idL now =
      (multaCobrada b pi now,
        { libros := listModify b.libros (b.prestamos.getD pi prestamoDefault).libroIdx
            fun l => { l with disponible := true },
          usuarios := listModify b.usuarios (b.prestamos.getD pi prestamoDefault).usuarioIdx
            fun u => { u with multas := u.multas + multaCobrada b pi now },
          prestamos := listModify b.prestamos pi (cerrar now) }) := by
  unfold devolver_libro multaCobrada
  rw [h]

/-! ### Fine-balance monotonicity helpers -/

theorem multasAt_devolver_le (b : Biblioteca) (idU idL now : Int) (i : Nat) :
    multasAt b i ≤ multasAt (devolver_libro b idU idL now).2 i := by
  cases h : findFirstIdx (matchesPrestamo b idU idL) b.prestamos with
  | none => rw [devolver_libro_eq_none now h]
  | some pi =>
    rw [devolver_libro_eq_some now h]
    unfold multasAt
    dsimp only
    by_cases hij : (b.prestamos.getD pi prestamoDefault).usuarioIdx = i
    · subst hij
      by_cases hlt : (b.prestamos.getD pi prestamoDefault).usuarioIdx < b.usuarios.length
      · rw [getD_listModify_self _ _ hlt]
        have := multa_nonneg (cerrar now (b.prestamos.getD pi prestamoDefault)) now
        unfold multaCobrada
        dsimp only
        omega
      · rw [listModify_of_ge _ (Nat.le_of_not_lt hlt)]
    · rw [getD_listModify_ne _ _ _ hij]

theorem multasAt_registrar (b : Biblioteca) (idU : Int) (n : String) (i : Nat) :
    multasAt (registrar_usuario b (mkUsuario idU n)) i = multasAt b i := by
  unfold multasAt registrar_usuario
  by_cases hi : i < b.usuarios.length
  · rw [List.getD_append _ _ _ _ hi]
  · rw [List.getD_eq_default _ _ (Nat.le_of_not_lt hi),
        List.getD_append_right _ _ _ _ (Nat.le_of_not_lt hi)]
    cases hd : i - b.usuarios.length with
    | zero => rfl
    | succ k => rfl

end Biblio

namespace Biblio

/-! ### Claims C5, C7, C10: failed lends, fine-balance monotonicity -/

/-- C5: `prestar_libro` returns `none` and leaves the whole state
untouched when the patron id is unregistered, the book id is unknown,
or every catalog book with that id is unavailable. -/
theorem prestar_libro_sin_efectos (b : Biblioteca) (idU idL now : Int)
    (h : (∀ u ∈ b.usuarios, u.id_usuario ≠ idU) ∨
         (∀ l ∈ b.libros, l.id_libro ≠ idL) ∨
         (∀ l ∈ b.libros, l.id_libro = idL → l.disponible = false)) :
    prestar_libro b idU idL now = (none, b) := by
  rcases h with h | h | h
  · apply prestar_libro_eq_none_left
    rw [findFirstIdx_eq_none_iff]
    intro u hu
    exact beq_eq_false_iff_ne.mpr (h u hu)
  · apply prestar_libro_eq_none_right
    rw [findFirstIdx_eq_none_iff]
    intro l hl
    have hb : (l.id_libro == idL) = false := beq_eq_false_iff_ne.mpr (h l hl)
    simp [hb]
  · apply prestar_libro_eq_none_right
    rw [findFirstIdx_eq_none_iff]
    intro l hl
    by_cases hid : l.id_libro = idL
    · simp [h l hl hid]
    · simp [beq_eq_false_iff_ne.mpr hid]

/-- Witness for C5: lending from the empty library fails without side
effects. -/
theorem prestar_libro_sin_efectos_witness :
    prestar_libro inicial 1 1 0 = (none, inicial) :=
  prestar_libro_sin_efectos inicial 1 1 0 (Or.inl (by decide))

/-- C7: no operation of the public surface ever decreases any patron's
accumulated fine balance. -/
theorem multas_monotonas (b : Biblioteca) (op : Op) (i : Nat) :
    multasAt b i ≤ multasAt (step b op) i := by
  cases op with
  | registrar idU n =>
    show multasAt b i ≤ multasAt (registrar_usuario b (mkUsuario idU n)) i
    rw [multasAt_registrar]
  | agregar idL t a => exact le_of_eq rfl
  | buscar c => exact le_of_eq rfl
  | prestar idU idL now =>
    show multasAt b i ≤ multasAt (prestar_libro b idU idL now).2 i
    cases h1 : findFirstIdx (fun u => u.id_usuario == idU) b.usuarios with
    | none => rw [prestar_libro_eq_none_left idL now h1]
    | some ui =>
      cases h2 : findFirstIdx (fun l => l.id_libro == idL && l.disponible) b.libros with
      | none => rw [prestar_libro_eq_none_right idU now h2]
      | some li =>
        rw [prestar_libro_eq_some now h1 h2]
        exact le_of_eq rfl
  | devolver idU idL now => exact multasAt_devolver_le b idU idL now i

/-- C10: the computed fine is never negative — a reference date before
the loan date gives fine 0, not a negative amount — so a return can
never lower a patron's fine balance. -/
theorem multa_no_negativa :
    (∀ (p : Prestamo) (now : Int), 0 ≤ calcular_multa p now) ∧
    (∀ (p : Prestamo) (now : Int), p.devuelto = false → now < p.fecha_prestamo →
        calcular_multa p now = 0) ∧
    (∀ (b : Biblioteca) (idU idL now : Int) (i : Nat),
        multasAt b i ≤ multasAt (devolver_libro b idU idL now).2 i) := by
  refine ⟨multa_nonneg, ?_, multasAt_devolver_le⟩
  intro p now hdev hlt
  have h7 : dias_prestados p now ≤ 7 := by
    unfold dias_prestados
    rw [if_pos hdev, diffDays_eq_ediv]
    have h1 : now - p.fecha_prestamo ≤ 7 * 86400 := by omega
    calc (now - p.fecha_prestamo) / 86400 ≤ 7 * 86400 / 86400 :=
          Int.ediv_le_ediv (by norm_num) h1
    _ = 7 := by norm_num
  unfold calcular_multa DIAS_MAXIMO
  rw [if_neg (by omega)]

/-- Witness for C10: a loan dated in the future of the query instant
yields fine 0. -/
theorem multa_no_negativa_witness :
    calcular_multa ⟨0, 0, 100, false, none⟩ 0 = 0 :=
  multa_no_negativa.2.1 ⟨0, 0, 100, false, none⟩ 0 rfl (by decide)

end Biblio

namespace Biblio

/-! ### Claims C8, C9: catalog search -/

theorem coincide_iff (c : String) (x : Libro) :
    coincide c x = true ↔
      (lowerStr c <:+: lowerStr x.titulo ∨ lowerStr c <:+: lowerStr x.autor) := by
  unfold coincide
  rw [Bool.or_eq_true, containsSubstr_iff_infix, containsSubstr_iff_infix]

/-- C8: `buscar_libro` returns exactly the catalog books whose lowered
title or author has the lowered query as a contiguous sublist, keeping
catalog order, and the spec's Orwell examples come out as stated. -/
theorem buscar_libro_caracterizacion :
    (∀ (b : Biblioteca) (c : String) (x : Libro),
        x ∈ buscar_libro b c ↔
          x ∈ b.libros ∧
            (lowerStr c <:+: lowerStr x.titulo ∨ lowerStr c <:+: lowerStr x.autor)) ∧
    (∀ (b : Biblioteca) (c : String), List.Sublist (buscar_libro b c) b.libros) ∧
    buscar_libro ⟨[mkLibro 2 "1984" "George Orwell"], [], []⟩ "orwell"
      = [mkLibro 2 "1984" "George Orwell"] ∧
    buscar_libro ⟨[mkLibro 2 "1984" "George Orwell"], [], []⟩ "ORWELL"
      = [mkLibro 2 "1984" "George Orwell"] ∧
    buscar_libro ⟨[mkLibro 2 "1984" "George Orwell"], [], []⟩ "1984"
      = [mkLibro 2 "1984" "George Orwell"] := by
  refine ⟨?_, ?_, by decide, by decide, by decide⟩
  · intro b c x
    unfold buscar_libro
    rw [List.mem_filter, coincide_iff]
  · intro b c
    exact List.filter_sublist b.libros

theorem containsSubstr_nil (hay : List Char) : containsSubstr hay [] = true := by
  unfold containsSubstr
  rw [List.any_eq_true]
  refine ⟨0, by simp, ?_⟩
  rw [List.isPrefixOf_iff_prefix]
  exact List.nil_prefix

theorem coincide_nil (x : Libro) : coincide "" x = true := by
  unfold coincide
  have he : lowerStr "" = [] := rfl
  rw [he, containsSubstr_nil, Bool.true_or]

theorem run_libros_key (ops : List Op) :
    ∀ b0 : Biblioteca,
      ((ops.foldl step b0).libros).map libroKey =
        b0.libros.map libroKey ++ (librosAgregados ops).map libroKey := by
  induction ops with
  | nil => intro b0; simp [librosAgregados]
  | cons op rest ih =>
    intro b0
    rw [List.foldl_cons, ih (step b0 op)]
    cases op with
    | registrar idU n => simp [step, registrar_usuario, librosAgregados]
    | agregar idL t a => simp [step, agregar_libro, librosAgregados]
    | buscar c => simp [step, librosAgregados]
    | prestar idU idL now =>
      have hlib : ((prestar_libro b0 idU idL now).2.libros).map libroKey
          = b0.libros.map libroKey := by
        cases h1 : findFirstIdx (fun u => u.id_usuario == idU) b0.usuarios with
        | none => rw [prestar_libro_eq_none_left idL now h1]
        | some ui =>
          cases h2 : findFirstIdx (fun l => l.id_libro == idL && l.disponible) b0.libros with
          | none => rw [prestar_libro_eq_none_right idU now h2]
          | some li =>
            rw [prestar_libro_eq_some now h1 h2]
            exact map_listModify _ _ _ _ (fun a => rfl)
      show ((prestar_libro b0 idU idL now).2.libros).map libroKey ++ _ = _
      rw [hlib]
      simp [librosAgregados]
    | devolver idU idL now =>
      have hlib : ((devolver_libro b0 idU idL now).2.libros).map libroKey
          = b0.libros.map libroKey := by
        cases h : findFirstIdx (matchesPrestamo b0 idU idL) b0.prestamos with
        | none => rw [devolver_libro_eq_none now h]
        | some pi =>
          rw [devolver_libro_eq_some now h]
          exact map_listModify _ _ _ _ (fun a => rfl)
      show ((devolver_libro b0 idU idL now).2.libros).map libroKey ++ _ = _
      rw [hlib]
      simp [librosAgregados]

/-- C9: searching with the empty query returns the entire catalog in
place, and over any operation sequence from the empty library that
catalog consists of exactly the books ever inserted, in insertion
order (their identity and bibliographic fields; only the availability
flag may have changed). -/
theorem buscar_libro_vacio :
    (∀ b : Biblioteca, buscar_libro b "" = b.libros) ∧
    (∀ ops : List Op,
        (buscar_libro (run ops) "").map libroKey = (librosAgregados ops).map libroKey) := by
  have hall : ∀ b : Biblioteca, buscar_libro b "" = b.libros := by
    intro b
    exact List.filter_eq_self.mpr fun a _ => coincide_nil a
  refine ⟨hall, fun ops => ?_⟩
  rw [hall]
  have h := run_libros_key ops inicial
  simpa [run, inicial] using h

end Biblio

namespace Biblio

/-! ### Bridging lemmas between list membership, get? and getD -/

theorem get?_some_getD {α : Type} {l : List α} {i : Nat} {a : α} (d : α)
    (h : l.get? i = some a) : i < l.length ∧ l.getD i d = a := by
  induction l generalizing i with
  | nil => simp [List.get?] at h
  | cons x xs ih =>
    cases i with
    | zero =>
      simp [List.get?] at h
      subst h
      exact ⟨by simp, rfl⟩
    | succ k =>
      simp only [List.get?] at h
      obtain ⟨h1, h2⟩ := ih h
      exact ⟨by simpa [Nat.succ_lt_succ_iff] using h1, by simpa [List.getD_cons_succ] using h2⟩

theorem get?_eq_some_of_lt {α : Type} {l : List α} {i : Nat} (d : α)
    (h : i < l.length) : l.get? i = some (l.getD i d) := by
  induction l generalizing i with
  | nil => simp at h
  | cons x xs ih =>
    cases i with
    | zero => rfl
    | succ k =>
      simp only [List.length_cons, Nat.succ_lt_succ_iff] at h
      simpa [List.get?, List.getD_cons_succ] using ih h

theorem exists_getD_of_mem {α : Type} {l : List α} {a : α} (d : α) (h : a ∈ l) :
    ∃ k, k < l.length ∧ l.getD k d = a := by
  obtain ⟨k, hk, hget⟩ := List.mem_iff_getElem.mp h
  exact ⟨k, hk, by rw [List.getD_eq_getElem _ _ hk]; exact hget⟩

theorem nodup_ids_getD {l : List Libro}
    (hN : (l.map fun x => x.id_libro).Nodup)
    {i j : Nat} (hi : i < l.length) (hj : j < l.length) (hne : i ≠ j) :
    (l.getD i libroDefault).id_libro ≠ (l.getD j libroDefault).id_libro := by
  intro heq
  apply hne
  rw [List.getD_eq_getElem _ _ hi, List.getD_eq_getElem _ _ hj] at heq
  have hi' : i < (l.map fun x => x.id_libro).length := by simpa using hi
  have hj' : j < (l.map fun x => x.id_libro).length := by simpa using hj
  have hmap : (l.map fun x => x.id_libro)[i] = (l.map fun x => x.id_libro)[j] := by
    rw [List.getElem_map, List.getElem_map]
    exact heq
  exact hN.getElem_inj_iff.mp hmap

/-- The return-search predicate in terms of list bounds and reads. -/
theorem matchesPrestamo_iff (b : Biblioteca) (idU idL : Int) (p : Prestamo) :
    matchesPrestamo b idU idL p = true ↔
      (p.usuarioIdx < b.usuarios.length ∧ p.libroIdx < b.libros.length ∧
       (b.usuarios.getD p.usuarioIdx usuarioDefault).id_usuario = idU ∧
       (b.libros.getD p.libroIdx libroDefault).id_libro = idL ∧
       p.devuelto = false) := by
  unfold matchesPrestamo
  cases hu : b.usuarios.get? p.usuarioIdx with
  | none =>
    simp only [Option.any_none, Bool.false_and]
    constructor
    · intro h; cases h
    · rintro ⟨h1, -⟩
      rw [get?_eq_some_of_lt usuarioDefault h1] at hu
      cases hu
  | some u =>
    obtain ⟨hult, hugd⟩ := get?_some_getD usuarioDefault hu
    cases hl : b.libros.get? p.libroIdx with
    | none =>
      simp only [Option.any_none, Bool.and_false, Bool.false_and]
      constructor
      · intro h; cases h
      · rintro ⟨-, h2, -⟩
        rw [get?_eq_some_of_lt libroDefault h2] at hl
        cases hl
    | some lb =>
      obtain ⟨hllt, hlgd⟩ := get?_some_getD libroDefault hl
      simp only [Option.any_some, Bool.and_eq_true, beq_iff_eq, Bool.not_eq_true']
      rw [hugd, hlgd]
      constructor
      · rintro ⟨⟨h1, h2⟩, h3⟩
        exact ⟨hult, hllt, h1, h2, h3⟩
      · rintro ⟨-, -, h1, h2, h3⟩
        exact ⟨⟨h1, h2⟩, h3⟩

end Biblio

namespace Biblio

/-! ### The invariant holds in every reachable state -/

theorem inv_inicial : Inv inicial :=
  ⟨fun _ hi => absurd hi (by simp [inicial, loanAt]),
   fun _ hi => absurd hi (by simp [inicial, loanAt]),
   fun _ hi => absurd hi (by simp [inicial, loanAt])⟩

theorem inv_registrar (b : Biblioteca) (u : Usuario) (h : Inv b) :
    Inv (registrar_usuario b u) := by
  obtain ⟨h1, h2, h3⟩ := h
  refine ⟨?_, h2, h3⟩
  intro i hi
  obtain ⟨ha, hb⟩ := h1 i hi
  refine ⟨?_, hb⟩
  show (loanAt b i).usuarioIdx < (b.usuarios ++ [u]).length
  rw [List.length_append]
  omega

theorem inv_agregar (b : Biblioteca) (l : Libro) (h : Inv b) :
    Inv (agregar_libro b l) := by
  obtain ⟨h1, h2, h3⟩ := h
  refine ⟨?_, ?_, h3⟩
  · intro i hi
    obtain ⟨ha, hb⟩ := h1 i hi
    refine ⟨ha, ?_⟩
    show (loanAt b i).libroIdx < (b.libros ++ [l]).length
    rw [List.length_append]
    omega
  · intro i hi hact
    have hb := (h1 i hi).2
    show ((b.libros ++ [l]).getD (loanAt b i).libroIdx libroDefault).disponible = false
    rw [List.getD_append _ _ _ _ hb]
    exact h2 i hi hact

theorem inv_prestar (b : Biblioteca) (idU idL now : Int) (h : Inv b) :
    Inv (prestar_libro b idU idL now).2 := by
  obtain ⟨h1, h2, h3⟩ := h
  cases hu : findFirstIdx (fun u => u.id_usuario == idU) b.usuarios with
  | none => rw [prestar_libro_eq_none_left idL now hu]; exact ⟨h1, h2, h3⟩
  | some ui =>
    cases hl : findFirstIdx (fun l => l.id_libro == idL && l.disponible) b.libros with
    | none => rw [prestar_libro_eq_none_right idU now hl]; exact ⟨h1, h2, h3⟩
    | some li =>
      rw [prestar_libro_eq_some now hu hl]
      have hui : ui < b.usuarios.length := findFirstIdx_lt_length hu
      have hli : li < b.libros.length := findFirstIdx_lt_length hl
      have hpredl := findFirstIdx_pred libroDefault hl
      rw [Bool.and_eq_true, beq_iff_eq] at hpredl
      obtain ⟨hid, hdisp⟩ := hpredl
      have hibound : ∀ q : Prestamo, q.devuelto = false →
          (b.libros.getD q.libroIdx libroDefault).disponible = false →
          q.libroIdx ≠ li := by
        intro q _ hqd heq
        rw [heq, hdisp] at hqd
        cases hqd
      refine ⟨?_, ?_, ?_⟩
      · intro i hi
        unfold loanAt at *
        dsimp only at hi ⊢
        simp only [List.length_append, List.length_cons, List.length_nil] at hi
        simp only [length_listModify]
        by_cases hcase : i < b.prestamos.length
        · rw [List.getD_append _ _ _ _ hcase]
          exact h1 i hcase
        · have hieq : i = b.prestamos.length := by omega
          subst hieq
          rw [List.getD_append_right _ _ _ _ (le_refl _)]
          simp only [Nat.sub_self, List.getD_cons_zero]
          exact ⟨hui, hli⟩
      · intro i hi hact
        unfold loanAt at *
        dsimp only at hi hact ⊢
        simp only [List.length_append, List.length_cons, List.length_nil] at hi
        by_cases hcase : i < b.prestamos.length
        · rw [List.getD_append _ _ _ _ hcase] at hact ⊢
          have hq2 := h2 i hcase hact
          rw [getD_listModify_ne _ _ _
            (Ne.symm (hibound _ hact hq2))]
          exact hq2
        · have hieq : i = b.prestamos.length := by omega
          subst hieq
          rw [List.getD_append_right _ _ _ _ (le_refl _)]
          simp only [Nat.sub_self, List.getD_cons_zero]
          rw [getD_listModify_self _ _ hli]
      · intro i hi j hj hne hacti hactj
        unfold loanAt at *
        dsimp only at hi hj hacti hactj ⊢
        simp only [List.length_append, List.length_cons, List.length_nil] at hi hj
        by_cases hci : i < b.prestamos.length
        · rw [List.getD_append _ _ _ _ hci] at hacti ⊢
          by_cases hcj : j < b.prestamos.length
          · rw [List.getD_append _ _ _ _ hcj] at hactj ⊢
            exact h3 i hci j hcj hne hacti hactj
          · have hjeq : j = b.prestamos.length := by omega
            subst hjeq
            rw [List.getD_append_right _ _ _ _ (le_refl _)]
            simp only [Nat.sub_self, List.getD_cons_zero]
            exact hibound _ hacti (h2 i hci hacti)
        · have hieq : i = b.prestamos.length := by omega
          subst hieq
          rw [List.getD_append_right _ _ _ _ (le_refl _)]
          simp only [Nat.sub_self, List.getD_cons_zero]
          by_cases hcj : j < b.prestamos.length
          · rw [List.getD_append _ _ _ _ hcj] at hactj ⊢
            exact Ne.symm (hibound _ hactj (h2 j hcj hactj))
          · have hjeq : j = b.prestamos.length := by omega
            exact absurd (hjeq ▸ rfl) hne

end Biblio

namespace Biblio

theorem inv_devolver (b : Biblioteca) (idU idL now : Int) (h : Inv b) :
    Inv (devolver_libro b idU idL now).2 := by
  obtain ⟨h1, h2, h3⟩ := h
  cases hf : findFirstIdx (matchesPrestamo b idU idL) b.prestamos with
  | none => rw [devolver_libro_eq_none now hf]; exact ⟨h1, h2, h3⟩
  | some pi =>
    rw [devolver_libro_eq_some now hf]
    have hpi : pi < b.prestamos.length := findFirstIdx_lt_length hf
    have hm := (matchesPrestamo_iff b idU idL _).mp (findFirstIdx_pred prestamoDefault hf)
    obtain ⟨hult, hllt, huid, hlid, hdev⟩ := hm
    refine ⟨?_, ?_, ?_⟩
    · intro i hi
      unfold loanAt at *
      dsimp only at hi ⊢
      simp only [length_listModify] at hi ⊢
      by_cases hci : i = pi
      · subst hci
        rw [getD_listModify_self _ _ hpi]
        exact h1 i hi
      · rw [getD_listModify_ne _ _ _ (fun hh => hci hh.symm)]
        exact h1 i hi
    · intro i hi hact
      unfold loanAt at *
      dsimp only at hi hact ⊢
      simp only [length_listModify] at hi
      by_cases hci : i = pi
      · subst hci
        rw [getD_listModify_self _ _ hpi] at hact
        simp [cerrar] at hact
      · rw [getD_listModify_ne _ _ _ (fun hh => hci hh.symm)] at hact ⊢
        have hq := h2 i hi hact
        have hne2 : (b.prestamos.getD i prestamoDefault).libroIdx ≠
            (b.prestamos.getD pi prestamoDefault).libroIdx :=
          h3 i hi pi hpi hci hact hdev
        rw [getD_listModify_ne _ _ _ (Ne.symm hne2)]
        exact hq
    · intro i hi j hj hne hacti hactj
      unfold loanAt at *
      dsimp only at hi hj hacti hactj ⊢
      simp only [length_listModify] at hi hj
      by_cases hci : i = pi
      · subst hci
        rw [getD_listModify_self _ _ hpi] at hacti
        simp [cerrar] at hacti
      · by_cases hcj : j = pi
        · subst hcj
          rw [getD_listModify_self _ _ hpi] at hactj
          simp [cerrar] at hactj
        · rw [getD_listModify_ne _ _ _ (fun hh => hci hh.symm)] at hacti ⊢
          rw [getD_listModify_ne _ _ _ (fun hh => hcj hh.symm)] at hactj ⊢
          exact h3 i hi j hj hne hacti hactj

theorem inv_step (b : Biblioteca) (op : Op) (h : Inv b) : Inv (step b op) := by
  cases op with
  | registrar i n => exact inv_registrar b (mkUsuario i n) h
  | agregar i t a => exact inv_agregar b (mkLibro i t a) h
  | buscar c => exact h
  | prestar u l now => exact inv_prestar b u l now h
  | devolver u l now => exact inv_devolver b u l now h

theorem inv_foldl (ops : List Op) : ∀ b0 : Biblioteca, Inv b0 → Inv (ops.foldl step b0) := by
  induction ops with
  | nil => intro b0 h; exact h
  | cons op rest ih => intro b0 h; exact ih _ (inv_step b0 op h)

theorem inv_run (ops : List Op) : Inv (run ops) := inv_foldl ops inicial inv_inicial

end Biblio

namespace Biblio

/-! ### Claims C6, C3 -/

theorem filter_active_le_one (li : Nat) (l : List Prestamo)
    (H : ∀ i < l.length, ∀ j < l.length, i ≠ j →
        (l.getD i prestamoDefault).devuelto = false →
        (l.getD j prestamoDefault).devuelto = false →
        (l.getD i prestamoDefault).libroIdx ≠ (l.getD j prestamoDefault).libroIdx) :
    (l.filter fun p => !p.devuelto && p.libroIdx == li).length ≤ 1 := by
  induction l with
  | nil => simp
  | cons a as ih =>
    rw [List.filter_cons]
    by_cases hpa : (!a.devuelto && a.libroIdx == li) = true
    · rw [if_pos hpa]
      have hnil : (as.filter fun p => !p.devuelto && p.libroIdx == li) = [] := by
        rw [List.filter_eq_nil_iff]
        intro q hq hq2
        obtain ⟨k, hk, hkq⟩ := exists_getD_of_mem prestamoDefault hq
        rw [Bool.and_eq_true, Bool.not_eq_true', beq_iff_eq] at hpa hq2
        have hH := H 0 (by simp) (k + 1)
          (by simpa [Nat.succ_lt_succ_iff] using hk) (by omega)
        simp only [List.getD_cons_zero, List.getD_cons_succ] at hH
        rw [hkq] at hH
        exact hH hpa.1 hq2.1 (by rw [hpa.2, hq2.2])
      rw [hnil]
      simp
    · rw [if_neg hpa]
      apply ih
      intro i hi j hj hne hai haj
      have hH := H (i + 1) (by simpa [Nat.succ_lt_succ_iff] using hi)
        (j + 1) (by simpa [Nat.succ_lt_succ_iff] using hj) (by omega)
      simp only [List.getD_cons_succ] at hH
      exact hH hai haj

/-- C6: in every state reachable from the empty library by registering
patrons, adding books, searching, lending and returning, each book
position of the catalog has at most one active loan record. -/
theorem prestamo_activo_unico_por_libro (ops : List Op) (li : Nat) :
    (prestamosActivosDe (run ops) li).length ≤ 1 := by
  have hinv := (inv_run ops).2.2
  unfold prestamosActivosDe
  apply filter_active_le_one
  intro i hi j hj hne hai haj
  exact hinv i hi j hj hne hai haj

/-- C3: when an active loan matches the pair, `devolver_libro` closes
exactly that loan with return date `now`, returns the fine of the
closed loan, flips the book's flag back to available, and adds that
same fine to the patron's balance. -/
theorem devolver_libro_exitoso (b : Biblioteca) (idU idL now : Int) (pi : Nat)
    (hf : findFirstIdx (matchesPrestamo b idU idL) b.prestamos = some pi) :
    (devolver_libro b idU idL now).1 = multaCobrada b pi now ∧
    (devolver_libro b idU idL now).1 =
      calcular_multa (loanAt (devolver_libro b idU idL now).2 pi) now ∧
    loanAt (devolver_libro b idU idL now).2 pi = cerrar now (loanAt b pi) ∧
    (loanAt (devolver_libro b idU idL now).2 pi).devuelto = true ∧
    (loanAt (devolver_libro b idU idL now).2 pi).fecha_devolucion = some now ∧
    (devolver_libro b idU idL now).2.libros.getD (loanAt b pi).libroIdx libroDefault =
      { b.libros.getD (loanAt b pi).libroIdx libroDefault with disponible := true } ∧
    multasAt (devolver_libro b idU idL now).2 (loanAt b pi).usuarioIdx =
      multasAt b (loanAt b pi).usuarioIdx + multaCobrada b pi now := by
  have hpi : pi < b.prestamos.length := findFirstIdx_lt_length hf
  have hm := (matchesPrestamo_iff b idU idL _).mp (findFirstIdx_pred prestamoDefault hf)
  obtain ⟨hult, hllt, huid, hlid, hdev⟩ := hm
  rw [devolver_libro_eq_some now hf]
  refine ⟨rfl, ?_, ?_, ?_, ?_, ?_, ?_⟩
  · unfold loanAt
    dsimp only
    rw [getD_listModify_self _ _ hpi]
    rfl
  · unfold loanAt
    dsimp only
    rw [getD_listModify_self _ _ hpi]
  · unfold loanAt
    dsimp only
    rw [getD_listModify_self _ _ hpi]
    rfl
  · unfold loanAt
    dsimp only
    rw [getD_listModify_self _ _ hpi]
    rfl
  · unfold loanAt
    dsimp only
    rw [getD_listModify_self _ _ hllt]
  · unfold multasAt loanAt
    dsimp only
    rw [getD_listModify_self _ _ hult]

/-- Witness for C3 on a concrete one-loan library returned ten days
later. -/
theorem devolver_libro_exitoso_witness :
    (devolver_libro (run [Op.registrar 1 "Ana", Op.agregar 2 "1984" "George Orwell",
        Op.prestar 1 2 0]) 1 2 864000).1 =
      multaCobrada (run [Op.registrar 1 "Ana", Op.agregar 2 "1984" "George Orwell",
        Op.prestar 1 2 0]) 0 864000 :=
  (devolver_libro_exitoso (run [Op.registrar 1 "Ana", Op.agregar 2 "1984" "George Orwell",
      Op.prestar 1 2 0]) 1 2 864000 0 (by decide)).1

end Biblio

namespace Biblio

/-! ### Claim C1: successful lend -/

/-- C1: with a registered patron id and an available catalog book of
that id (ids unique in the catalog, as the data model requires),
`prestar_libro` returns a fresh active loan dated `now`, appends it to
the loan list, leaves that loan's book flagged unavailable, and any
further lend of the same book id by any patron yields `none`. -/
theorem prestar_libro_exitoso (b : Biblioteca) (idU idL now : Int)
    (hN : (b.libros.map fun l => l.id_libro).Nodup)
    (hu : ∃ u ∈ b.usuarios, u.id_usuario = idU)
    (hl : ∃ l ∈ b.libros, l.id_libro = idL ∧ l.disponible = true) :
    ∃ p : Prestamo,
      (prestar_libro b idU idL now).1 = some p ∧
      p.devuelto = false ∧
      p.fecha_prestamo = now ∧
      (prestar_libro b idU idL now).2.prestamos = b.prestamos ++ [p] ∧
      ((prestar_libro b idU idL now).2.libros.getD p.libroIdx libroDefault).id_libro = idL ∧
      ((prestar_libro b idU idL now).2.libros.getD p.libroIdx libroDefault).disponible = false ∧
      ∀ idU2 now2 : Int,
        (prestar_libro (prestar_libro b idU idL now).2 idU2 idL now2).1 = none := by
  obtain ⟨u, humem, huid⟩ := hu
  obtain ⟨l0, hlmem, hlid, hldisp⟩ := hl
  obtain ⟨ui, hui⟩ := findFirstIdx_isSome_of_mem
    (p := fun x => x.id_usuario == idU) humem
    (by rw [beq_iff_eq]; exact huid)
  obtain ⟨li, hli⟩ := findFirstIdx_isSome_of_mem
    (p := fun x => x.id_libro == idL && x.disponible) hlmem
    (by rw [Bool.and_eq_true, beq_iff_eq]; exact ⟨hlid, hldisp⟩)
  have hliB : li < b.libros.length := findFirstIdx_lt_length hli
  have hpredl := findFirstIdx_pred libroDefault hli
  rw [Bool.and_eq_true, beq_iff_eq] at hpredl
  obtain ⟨hid, hdisp⟩ := hpredl
  rw [prestar_libro_eq_some now hui hli]
  refine ⟨⟨ui, li, now, false, none⟩, rfl, rfl, rfl, rfl, ?_, ?_, ?_⟩
  · dsimp only
    rw [getD_listModify_self _ _ hliB]
    exact hid
  · dsimp only
    rw [getD_listModify_self _ _ hliB]
  · intro idU2 now2
    have hnone : findFirstIdx (fun x => x.id_libro == idL && x.disponible)
        (listModify b.libros li fun l => { l with disponible := false }) = none := by
      rw [findFirstIdx_eq_none_iff]
      intro x hx
      obtain ⟨k, hk, hkx⟩ := exists_getD_of_mem libroDefault hx
      rw [length_listModify] at hk
      by_cases hck : k = li
      · subst hck
        rw [getD_listModify_self _ _ hk] at hkx
        rw [← hkx]
        simp
      · rw [getD_listModify_ne _ _ _ (fun hh => hck hh.symm)] at hkx
        have hneid := nodup_ids_getD hN hk hliB hck
        rw [hkx, hid] at hneid
        simp [beq_eq_false_iff_ne.mpr hneid]
    rw [prestar_libro_eq_none_right idU2 now2 hnone]

/-- Witness for C1 on a one-book, one-patron library. -/
theorem prestar_libro_exitoso_witness :
    ∃ p : Prestamo,
      (prestar_libro ⟨[mkLibro 2 "1984" "George Orwell"], [mkUsuario 1 "Ana"], []⟩
          1 2 0).1 = some p ∧
      p.devuelto = false ∧
      p.fecha_prestamo = 0 ∧
      (prestar_libro ⟨[mkLibro 2 "1984" "George Orwell"], [mkUsuario 1 "Ana"], []⟩
          1 2 0).2.prestamos =
        (⟨[mkLibro 2 "1984" "George Orwell"], [mkUsuario 1 "Ana"], []⟩ :
          Biblioteca).prestamos ++ [p] ∧
      ((prestar_libro ⟨[mkLibro 2 "1984" "George Orwell"], [mkUsuario 1 "Ana"], []⟩
          1 2 0).2.libros.getD p.libroIdx libroDefault).id_libro = 2 ∧
      ((prestar_libro ⟨[mkLibro 2 "1984" "George Orwell"], [mkUsuario 1 "Ana"], []⟩
          1 2 0).2.libros.getD p.libroIdx libroDefault).disponible = false ∧
      ∀ idU2 now2 : Int,
        (prestar_libro (prestar_libro
            ⟨[mkLibro 2 "1984" "George Orwell"], [mkUsuario 1 "Ana"], []⟩ 1 2 0).2
          idU2 2 now2).1 = none :=
  prestar_libro_exitoso ⟨[mkLibro 2 "1984" "George Orwell"], [mkUsuario 1 "Ana"], []⟩
    1 2 0 (by decide) (by decide) (by decide)

end Biblio

namespace Biblio

/-! ### Claim C4: returning twice -/

/-- C4: on a state satisfying the maintained invariant and with unique
catalog book ids (the data model), a second immediate `devolver_libro`
for the same pair finds no active loan: it returns 0 and leaves the
state — in particular every fine balance — exactly as after the first
call, whatever instants the two calls use. -/
theorem devolver_libro_idempotente (b : Biblioteca) (idU idL now1 now2 : Int)
    (hInv : Inv b) (hN : (b.libros.map fun l => l.id_libro).Nodup) :
    (devolver_libro (devolver_libro b idU idL now1).2 idU idL now2).1 = 0 ∧
    (devolver_libro (devolver_libro b idU idL now1).2 idU idL now2).2 =
      (devolver_libro b idU idL now1).2 ∧
    ∀ i : Nat,
      multasAt (devolver_libro (devolver_libro b idU idL now1).2 idU idL now2).2 i =
        multasAt (devolver_libro b idU idL now1).2 i := by
  obtain ⟨h1, h2, h3⟩ := hInv
  cases hf : findFirstIdx (matchesPrestamo b idU idL) b.prestamos with
  | none =>
    rw [devolver_libro_eq_none now1 hf, devolver_libro_eq_none now2 hf]
    exact ⟨rfl, rfl, fun i => rfl⟩
  | some pi =>
    have hpi : pi < b.prestamos.length := findFirstIdx_lt_length hf
    have hm := (matchesPrestamo_iff b idU idL _).mp (findFirstIdx_pred prestamoDefault hf)
    obtain ⟨hult, hllt, huid, hlid, hdev⟩ := hm
    have hids_lib : ∀ k : Nat,
        ((listModify b.libros (b.prestamos.getD pi prestamoDefault).libroIdx
            fun l => { l with disponible := true }).getD k libroDefault).id_libro =
          (b.libros.getD k libroDefault).id_libro := by
      intro k
      by_cases hc : (b.prestamos.getD pi prestamoDefault).libroIdx = k
      · rw [← hc]
        by_cases hlt2 : (b.prestamos.getD pi prestamoDefault).libroIdx < b.libros.length
        · rw [getD_listModify_self _ _ hlt2]
        · rw [listModify_of_ge _ (Nat.le_of_not_lt hlt2)]
      · rw [getD_listModify_ne _ _ _ hc]
    have hids_usu : ∀ k : Nat,
        ((listModify b.usuarios (b.prestamos.getD pi prestamoDefault).usuarioIdx
            fun u => { u with multas := u.multas + multaCobrada b pi now1 }).getD k
          usuarioDefault).id_usuario =
          (b.usuarios.getD k usuarioDefault).id_usuario := by
      intro k
      by_cases hc : (b.prestamos.getD pi prestamoDefault).usuarioIdx = k
      · rw [← hc]
        by_cases hlt2 : (b.prestamos.getD pi prestamoDefault).usuarioIdx < b.usuarios.length
        · rw [getD_listModify_self _ _ hlt2]
        · rw [listModify_of_ge _ (Nat.le_of_not_lt hlt2)]
      · rw [getD_listModify_ne _ _ _ hc]
    rw [devolver_libro_eq_some now1 hf]
    have hnone : findFirstIdx
        (matchesPrestamo
          { libros := listModify b.libros (b.prestamos.getD pi prestamoDefault).libroIdx
              fun l => { l with disponible := true },
            usuarios := listModify b.usuarios (b.prestamos.getD pi prestamoDefault).usuarioIdx
              fun u => { u with multas := u.multas + multaCobrada b pi now1 },
            prestamos := listModify b.prestamos pi (cerrar now1) } idU idL)
        (listModify b.prestamos pi (cerrar now1)) = none := by
      rw [findFirstIdx_eq_none_iff]
      intro q hq
      obtain ⟨k, hk, hkq⟩ := exists_getD_of_mem prestamoDefault hq
      rw [length_listModify] at hk
      rw [Bool.eq_false_iff]
      intro hmatch
      rw [matchesPrestamo_iff] at hmatch
      dsimp only at hmatch
      obtain ⟨hq1, hq2, hq3, hq4, hq5⟩ := hmatch
      by_cases hck : k = pi
      · subst hck
        rw [getD_listModify_self _ _ hk] at hkq
        rw [← hkq] at hq5
        simp [cerrar] at hq5
      · rw [getD_listModify_ne _ _ _ (fun hh => hck hh.symm)] at hkq
        have hq5b : (b.prestamos.getD k prestamoDefault).devuelto = false := by
          rw [hkq]; exact hq5
        rw [length_listModify] at hq2
        have hq4b : (b.libros.getD q.libroIdx libroDefault).id_libro = idL := by
          rw [← hids_lib q.libroIdx]; exact hq4
        have hne3 : (b.prestamos.getD k prestamoDefault).libroIdx ≠
            (b.prestamos.getD pi prestamoDefault).libroIdx :=
          h3 k hk pi hpi hck hq5b hdev
        rw [hkq] at hne3
        exact nodup_ids_getD hN hq2 hllt hne3 (hq4b.trans hlid.symm)
    rw [devolver_libro_eq_none now2 hnone]
    exact ⟨rfl, rfl, fun i => rfl⟩

/-- Witness for C4: lending and returning one book, then returning it
again ten days later, yields 0 the second time. -/
theorem devolver_libro_idempotente_witness :
    (devolver_libro (devolver_libro (run [Op.registrar 1 "Ana",
        Op.agregar 2 "1984" "George Orwell", Op.prestar 1 2 0]) 1 2 0).2
      1 2 864000).1 = 0 :=
  (devolver_libro_idempotente (run [Op.registrar 1 "Ana",
      Op.agregar 2 "1984" "George Orwell", Op.prestar 1 2 0]) 1 2 0 864000
    (inv_run [Op.registrar 1 "Ana", Op.agregar 2 "1984" "George Orwell",
      Op.prestar 1 2 0]) (by decide)).1

end Biblio
